import Mathlib

/-
Verification of the instancecontrol supervision package.

The repository holds two variants of the package: a richer one
(`Controller` with options, an injected `DB`, a `watchLock`, and an
EPERM-aware `isPidAlive`) and a simpler one (module-level `mine_db`
calls, liveness by probe success only, all best-effort writes swallowed).
The richer variant is embedded in namespace `InstanceControl`, the
simpler one in `InstanceControl.Simple`.

Modelling choices, uniform in both variants:
- `time.Time` instants are naturals; the zero `time.Time` is `0`; every
  `time.Now()` inside one operation is the single per-call instant `now`.
- `filepath.Abs` is an injected total function `absf` (its error branch,
  reachable only when the working directory cannot be read, is not
  modelled).
- the store is a `DB` value: an association list of entries, a list of
  keys whose `Get` currently reports a retrieval error, and a schedule
  prescribing the outcome of successive `Set` calls.
- the JSON marshal/unmarshal round trip in `loadRecord` is `decodeRecord`:
  it succeeds exactly on values of record shape and fails on anything
  else found in the store.
- the probe `syscall.Kill(pid, 0)` is an injected function
  `probe : Int → KillResult`.
- OS side effects (log directories, log sinks, SIGTERM, `Kill`) either do
  not influence the record flow or are injected as environment fields;
  the discarded result of `proc.Kill()` is the deliberately unread field
  `killOk`.
- each operation additionally returns the list of records it handed to
  `Set` (its attempted writes), so that invariants over "every record
  written to the store" can be stated.
-/

namespace InstanceControl

/-- `type State string` from the source: states are strings. -/
abbrev State := String

def StateUnknown : State := "unknown"

def StateStarting : State := "starting"

def StateRunning : State := "running"

def StateStopping : State := "stopping"

def StateStopped : State := "stopped"

def StateFailed : State := "failed"

/-- The persisted `InstanceRecord` struct. -/
structure InstanceRecord where
  state : State
  pid : Int
  startedAt : Nat
  stoppedAt : Nat
  updatedAt : Nat
  lastError : String
deriving DecidableEq

/-- Go's zero value `var r InstanceRecord`. -/
def InstanceRecord.zero : InstanceRecord :=
  { state := "", pid := 0, startedAt := 0, stoppedAt := 0, updatedAt := 0, lastError := "" }

/-- A value held by the store: either something that re-encodes into an
`InstanceRecord` (any value written by `saveRecord`) or a value on which
the marshal/unmarshal round trip of `loadRecord` fails. -/
inductive StoreVal where
  | record (r : InstanceRecord)
  | bad (msg : String)
deriving DecidableEq

/-- The key-value store with an explicit failure model: `getFails` holds
keys on which `Get` reports a retrieval error, `setSchedule` prescribes
the outcomes of successive `Set` calls (`true` = that call fails); an
exhausted schedule means `Set` succeeds. -/
structure DB where
  entries : List (String × StoreVal)
  getFails : List String
  setSchedule : List Bool
deriving DecidableEq

def DB.Get (db : DB) (key : String) : Except String StoreVal :=
  if db.getFails.contains key then Except.error "store error"
  else
    match db.entries.find? (fun kv => kv.1 == key) with
    | some kv => Except.ok kv.2
    | none => Except.error "not found"

def DB.Set (db : DB) (key : String) (v : StoreVal) : DB × Option String :=
  match db.setSchedule with
  | true :: rest => ({ db with setSchedule := rest }, some "set failed")
  | false :: rest => ({ db with entries := (key, v) :: db.entries, setSchedule := rest }, none)
  | [] => ({ db with entries := (key, v) :: db.entries }, none)

instance {ε α : Type} [DecidableEq ε] [DecidableEq α] : DecidableEq (Except ε α) := fun a b =>
  match a, b with
  | Except.error e, Except.error f =>
    if h : e = f then isTrue (congrArg Except.error h)
    else isFalse fun hc => h (Except.error.inj hc)
  | Except.error _, Except.ok _ => isFalse fun hc => Except.noConfusion hc
  | Except.ok _, Except.error _ => isFalse fun hc => Except.noConfusion hc
  | Except.ok x, Except.ok y =>
    if h : x = y then isTrue (congrArg Except.ok h)
    else isFalse fun hc => h (Except.ok.inj hc)

/-- `json.Marshal` of the fetched value followed by `json.Unmarshal` into
an `InstanceRecord`. -/
def decodeRecord : StoreVal → Except String InstanceRecord
  | StoreVal.record r => Except.ok r
  | StoreVal.bad msg => Except.error msg

/-- Outcome of the `syscall.Kill(pid, 0)` existence probe. -/
inductive KillResult where
  | ok
  | eperm
  | esrch
  | other (msg : String)
deriving DecidableEq

/-- `isPidAlive` of the richer variant: `pid <= 0` is dead; a successful
probe or an `EPERM` answer is alive; anything else is dead. -/
def isPidAlive (probe : Int → KillResult) (pid : Int) : Bool :=
  if pid ≤ 0 then false
  else
    match probe pid with
    | KillResult.ok => true
    | KillResult.eperm => true
    | _ => false

/-- The richer variant's `Controller` configuration (the `db` field is
passed explicitly to each operation, the `watchLock` is modelled by
`wstep`/`wrun` below). -/
structure Controller where
  gracePeriod : Nat
  defaultCmd : List String
  useAbsPaths : Bool

/-- `formatDBKey` of the richer variant. -/
def formatDBKey (absf : String → String) (c : Controller) (path : String) : String :=
  if c.useAbsPaths then "instancecontrol:" ++ absf path
  else "instancecontrol:" ++ path

/-- Result of one `saveRecord` call: the store afterwards, the `Set`
error, and the record (with refreshed `updated_at`) handed to `Set`. -/
structure SaveResult where
  db : DB
  err : Option String
  written : InstanceRecord
deriving DecidableEq

/-- Common body of both variants' `saveRecord`: stamp `updated_at` with
the current instant, then `Set` under the given key. -/
def saveByKey (db : DB) (now : Nat) (key : String) (r : InstanceRecord) : SaveResult :=
  let r' := { r with updatedAt := now }
  let p := db.Set key (StoreVal.record r')
  { db := p.1, err := p.2, written := r' }

/-- Common body of both variants' `loadRecord`: a `Get` failure of any
kind yields a synthetic `unknown` record and no error; a fetched value
that fails the decode round trip yields the zero record and the decode
error. -/
def loadByKey (db : DB) (now : Nat) (key : String) : InstanceRecord × Option String :=
  match db.Get key with
  | Except.error _ =>
    ({ InstanceRecord.zero with state := StateUnknown, updatedAt := now }, none)
  | Except.ok v =>
    match decodeRecord v with
    | Except.error e => (InstanceRecord.zero, some e)
    | Except.ok r => (r, none)

/-- `Controller.saveRecord` of the richer variant. -/
def saveRecord (absf : String → String) (c : Controller) (db : DB) (now : Nat)
    (path : String) (r : InstanceRecord) : SaveResult :=
  saveByKey db now (formatDBKey absf c path) r

/-- `Controller.loadRecord` of the richer variant. -/
def loadRecord (absf : String → String) (c : Controller) (db : DB) (now : Nat)
    (path : String) : InstanceRecord × Option String :=
  loadByKey db now (formatDBKey absf c path)

/-- Outcome of `cmd.Start()`: the new process id, or the launch error. -/
inductive SpawnOutcome where
  | ok (pid : Int)
  | err (msg : String)
deriving DecidableEq

def SpawnOutcome.toErr : SpawnOutcome → Option String
  | SpawnOutcome.ok _ => none
  | SpawnOutcome.err m => some m

def SpawnOutcome.isOk : SpawnOutcome → Bool
  | SpawnOutcome.ok _ => true
  | SpawnOutcome.err _ => false

/-- Environment of one `Start` call: path normalization, liveness probe,
the call's instant, the `os.MkdirAll` outcome, and the spawn outcome. -/
structure StartEnv where
  absf : String → String
  probe : Int → KillResult
  now : Nat
  mkdirOk : Bool
  spawn : SpawnOutcome

/-- Observable outcome of one `Start` call: the returned error, the store
afterwards, the attempted writes, whether a process was spawned, and
whether a watch task was launched. -/
structure StartResult where
  err : Option String
  db : DB
  writes : List InstanceRecord
  spawned : Bool
  watchStarted : Bool
deriving DecidableEq

/-- `Controller.Start` of the richer variant. The unused launch command
value (explicit or `defaultCmd`) only feeds the spawn, whose outcome is
`env.spawn`; the log-sink side effects are not modelled. -/
def Start (c : Controller) (env : StartEnv) (db : DB) (targetPath : String)
    (launchCmd : List String) : StartResult :=
  let absPath := env.absf targetPath
  match loadRecord env.absf c db env.now absPath with
  | (_, some e) =>
    { err := some e, db := db, writes := [], spawned := false, watchStarted := false }
  | (r, none) =>
    if r.pid ≠ 0 ∧ isPidAlive env.probe r.pid = true then
      { err := none, db := db, writes := [], spawned := false, watchStarted := false }
    else if launchCmd = [] ∧ c.defaultCmd = [] then
      { err := some "launch command required", db := db, writes := [], spawned := false,
        watchStarted := false }
    else if env.mkdirOk = false then
      { err := some "mkdir failed", db := db, writes := [], spawned := false,
        watchStarted := false }
    else
      let s1 := saveRecord env.absf c db env.now absPath
        { InstanceRecord.zero with state := StateStarting }
      match s1.err with
      | some e =>
        { err := some e, db := s1.db, writes := [s1.written], spawned := false,
          watchStarted := false }
      | none =>
        match env.spawn with
        | SpawnOutcome.err msg =>
          let s2 := saveRecord env.absf c s1.db env.now absPath
            { InstanceRecord.zero with state := StateFailed, lastError := msg }
          { err := some msg, db := s2.db, writes := [s1.written, s2.written],
            spawned := false, watchStarted := false }
        | SpawnOutcome.ok pid =>
          let s2 := saveRecord env.absf c s1.db env.now absPath
            { InstanceRecord.zero with state := StateRunning, pid := pid, startedAt := env.now }
          { err := none, db := s2.db, writes := [s1.written, s2.written],
            spawned := true, watchStarted := true }

/-- Body of `Controller.watchProcess` of the richer variant, run once
`cmd.Wait()` has returned `waitErr`. The `watchLock` it holds across the
wait affects scheduling only and is modelled separately by
`wstep`/`wrun`. -/
def watchProcess (c : Controller) (absf : String → String) (db : DB) (now : Nat)
    (absPath : String) (waitErr : Option String) : SaveResult :=
  let r0 : InstanceRecord := { InstanceRecord.zero with updatedAt := now }
  let r1 := match waitErr with
    | some e => { r0 with state := StateFailed, lastError := e }
    | none => { r0 with state := StateStopped, stoppedAt := now }
  let r2 := { r1 with pid := 0 }
  saveRecord absf c db now absPath r2

/-- Environment of one `Stop` call: normalization, probe, instant, the
`os.FindProcess` outcome, the liveness observation of each 200ms poll
iteration inside the grace window, and the discarded `proc.Kill()`
outcome. -/
structure StopEnv where
  absf : String → String
  probe : Int → KillResult
  now : Nat
  findProcessErr : Option String
  polls : List Bool
  killOk : Bool

structure StopResult where
  err : Option String
  db : DB
  writes : List InstanceRecord
deriving DecidableEq

/-- The grace-period polling loop: it reports death as soon as one of the
bounded sequence of liveness observations is `false`. -/
def pollUntilDead : List Bool → Bool
  | [] => false
  | alive :: rest => if alive then pollUntilDead rest else true

/-- `Controller.Stop` of the richer variant. -/
def Stop (c : Controller) (env : StopEnv) (db : DB) (targetPath : String) : StopResult :=
  let absPath := env.absf targetPath
  match loadRecord env.absf c db env.now absPath with
  | (_, some e) => { err := some e, db := db, writes := [] }
  | (r, none) =>
    if r.pid = 0 ∨ isPidAlive env.probe r.pid = false then
      let s1 := saveRecord env.absf c db env.now absPath
        { InstanceRecord.zero with state := StateStopped, stoppedAt := env.now }
      { err := none, db := s1.db, writes := [s1.written] }
    else
      match env.findProcessErr with
      | some e =>
        let s1 := saveRecord env.absf c db env.now absPath
          { InstanceRecord.zero with state := StateFailed, lastError := e }
        { err := some e, db := s1.db, writes := [s1.written] }
      | none =>
        if pollUntilDead env.polls = true then
          let s1 := saveRecord env.absf c db env.now absPath
            { InstanceRecord.zero with state := StateStopped, stoppedAt := env.now }
          { err := none, db := s1.db, writes := [s1.written] }
        else
          let s1 := saveRecord env.absf c db env.now absPath
            { InstanceRecord.zero with state := StateStopped, stoppedAt := env.now }
          { err := none, db := s1.db, writes := [s1.written] }

structure GetStateEnv where
  absf : String → String
  probe : Int → KillResult
  now : Nat

structure GetStateResult where
  record : InstanceRecord
  err : Option String
  db : DB
  writes : List InstanceRecord
deriving DecidableEq

/-- `Controller.GetState` of the richer variant, with the self-healing
rewrite for a nonzero pid whose process is no longer alive. -/
def GetState (c : Controller) (env : GetStateEnv) (db : DB) (targetPath : String) :
    GetStateResult :=
  let absPath := env.absf targetPath
  match loadRecord env.absf c db env.now absPath with
  | (r, some e) => { record := r, err := some e, db := db, writes := [] }
  | (r, none) =>
    if r.pid ≠ 0 ∧ isPidAlive env.probe r.pid = false then
      let r' := { r with state := StateStopped, pid := 0, updatedAt := env.now }
      let s1 := saveRecord env.absf c db env.now absPath r'
      { record := r', err := none, db := s1.db, writes := [s1.written] }
    else
      { record := r, err := none, db := db, writes := [] }

namespace Simple

/-- `dbKeyFor` of the simpler variant (always absolute). -/
def dbKeyFor (absf : String → String) (path : String) : String :=
  "instancecontrol:" ++ absf path

/-- `Controller.saveRecord` of the simpler variant. -/
def saveRecord (absf : String → String) (db : DB) (now : Nat) (path : String)
    (r : InstanceRecord) : SaveResult :=
  saveByKey db now (dbKeyFor absf path) r

/-- `Controller.loadRecord` of the simpler variant. -/
def loadRecord (absf : String → String) (db : DB) (now : Nat) (path : String) :
    InstanceRecord × Option String :=
  loadByKey db now (dbKeyFor absf path)

/-- `isPidAlive` of the simpler variant: alive exactly when the probe
reports no error; a permission-denied probe counts as dead. -/
def isPidAlive (probe : Int → KillResult) (pid : Int) : Bool :=
  if pid ≤ 0 then false
  else
    match probe pid with
    | KillResult.ok => true
    | _ => false

/-- `Controller.Start` of the simpler variant: the load error is
discarded, there is no default command, the `MkdirAll` outcome is
ignored, and the `starting` write's `Set` error is swallowed. -/
def Start (env : StartEnv) (db : DB) (targetPath : String) (launchCmd : List String) :
    StartResult :=
  let absPath := env.absf targetPath
  let lr := loadRecord env.absf db env.now absPath
  let r := lr.1
  if r.pid ≠ 0 ∧ isPidAlive env.probe r.pid = true then
    { err := none, db := db, writes := [], spawned := false, watchStarted := false }
  else if launchCmd = [] then
    { err := some "launch command required", db := db, writes := [], spawned := false,
      watchStarted := false }
  else
    let s1 := saveRecord env.absf db env.now absPath
      { InstanceRecord.zero with state := StateStarting }
    match env.spawn with
    | SpawnOutcome.err msg =>
      let s2 := saveRecord env.absf s1.db env.now absPath
        { InstanceRecord.zero with state := StateFailed, lastError := msg }
      { err := some msg, db := s2.db, writes := [s1.written, s2.written],
        spawned := false, watchStarted := false }
    | SpawnOutcome.ok pid =>
      let s2 := saveRecord env.absf s1.db env.now absPath
        { InstanceRecord.zero with state := StateRunning, pid := pid, startedAt := env.now }
      { err := none, db := s2.db, writes := [s1.written, s2.written],
        spawned := true, watchStarted := true }

/-- `Controller.Stop` of the simpler variant: the load error is
discarded, and the idempotent branch writes `stopped` without a
`stopped_at` stamp. -/
def Stop (env : StopEnv) (db : DB) (targetPath : String) : StopResult :=
  let absPath := env.absf targetPath
  let lr := loadRecord env.absf db env.now absPath
  let r := lr.1
  if r.pid = 0 ∨ isPidAlive env.probe r.pid = false then
    let s1 := saveRecord env.absf db env.now absPath
      { InstanceRecord.zero with state := StateStopped }
    { err := none, db := s1.db, writes := [s1.written] }
  else
    match env.findProcessErr with
    | some e =>
      let s1 := saveRecord env.absf db env.now absPath
        { InstanceRecord.zero with state := StateFailed, lastError := e }
      { err := some e, db := s1.db, writes := [s1.written] }
    | none =>
      if pollUntilDead env.polls = true then
        let s1 := saveRecord env.absf db env.now absPath
          { InstanceRecord.zero with state := StateStopped, stoppedAt := env.now }
        { err := none, db := s1.db, writes := [s1.written] }
      else
        let s1 := saveRecord env.absf db env.now absPath
          { InstanceRecord.zero with state := StateStopped, stoppedAt := env.now }
        { err := none, db := s1.db, writes := [s1.written] }

/-- `Controller.GetState` of the simpler variant. -/
def GetState (env : GetStateEnv) (db : DB) (targetPath : String) : GetStateResult :=
  let absPath := env.absf targetPath
  match loadRecord env.absf db env.now absPath with
  | (r, some e) => { record := r, err := some e, db := db, writes := [] }
  | (r, none) =>
    if r.pid ≠ 0 ∧ isPidAlive env.probe r.pid = false then
      let r' := { r with state := StateStopped, pid := 0, updatedAt := env.now }
      let s1 := saveRecord env.absf db env.now absPath r'
      { record := r', err := none, db := s1.db, writes := [s1.written] }
    else
      { record := r, err := none, db := db, writes := [] }

/-- Body of the inline watch goroutine of the simpler variant, run once
`cmd.Wait()` has returned `waitErr`. -/
def watchBody (absf : String → String) (db : DB) (now : Nat) (absPath : String)
    (waitErr : Option String) : SaveResult :=
  let r0 : InstanceRecord := { InstanceRecord.zero with updatedAt := now }
  let r1 := match waitErr with
    | some e => { r0 with state := StateFailed, lastError := e }
    | none => { r0 with state := StateStopped, stoppedAt := now }
  let r2 := { r1 with pid := 0 }
  saveRecord absf db now absPath r2

end Simple

/-- Phase of one watch task of the richer variant: not yet holding the
`watchLock`, blocked in `cmd.Wait()` while holding it, or done (terminal
record written, lock released). -/
inductive WatchPhase where
  | pending
  | waiting
  | finished
deriving DecidableEq

/-- Scheduling state of two concurrently spawned instances' watch tasks
sharing the one `Controller.watchLock`. -/
structure WatchSched where
  lock : Option (Fin 2)
  ph : Fin 2 → WatchPhase

/-- Scheduler events: task `i` acquires the shared `watchLock` (the first
statement of `watchProcess`), or task `i`'s process exits and its
`cmd.Wait()` — which can only be executing while `i` holds the lock —
returns, after which `i` writes the terminal record and releases the
lock. -/
inductive WEvent where
  | acquire (i : Fin 2)
  | exit (i : Fin 2)
deriving DecidableEq

/-- One scheduler step; an event whose precondition does not hold leaves
the state unchanged. -/
def wstep (s : WatchSched) (e : WEvent) : WatchSched :=
  match e with
  | WEvent.acquire i =>
    if s.lock = none ∧ s.ph i = WatchPhase.pending then
      { lock := some i, ph := fun j => if j = i then WatchPhase.waiting else s.ph j }
    else s
  | WEvent.exit i =>
    if s.lock = some i ∧ s.ph i = WatchPhase.waiting then
      { lock := none, ph := fun j => if j = i then WatchPhase.finished else s.ph j }
    else s

def wrun (s : WatchSched) : List WEvent → WatchSched
  | [] => s
  | e :: es => wrun (wstep s e) es

/-- Two watch tasks launched; task 0 has taken the `watchLock` and is
blocked in `cmd.Wait()`; task 1 is still waiting for the lock. -/
def wInit : WatchSched :=
  { lock := some 0, ph := fun i => if i = 0 then WatchPhase.waiting else WatchPhase.pending }

/-- The record invariant of every store write: a nonzero pid is written
only together with the `running` state, and `starting`, `stopped` and
`failed` writes carry pid 0. -/
def goodWrite (w : InstanceRecord) : Prop :=
  (w.pid ≠ 0 → w.state = StateRunning) ∧
  ((w.state = StateStarting ∨ w.state = StateStopped ∨ w.state = StateFailed) → w.pid = 0)

instance (w : InstanceRecord) : Decidable (goodWrite w) := by
  unfold goodWrite
  infer_instance

lemma goodWrite_of_pid_zero (w : InstanceRecord) (h : w.pid = 0) : goodWrite w :=
  ⟨fun hp => absurd h hp, fun _ => h⟩

lemma goodWrite_running (p : Int) (n m : Nat) :
    goodWrite { InstanceRecord.zero with
      state := StateRunning, pid := p, startedAt := n, updatedAt := m } := by
  constructor
  · intro _
    rfl
  · intro h
    rcases h with h | h | h
    · exact absurd (show StateRunning = StateStarting from h) (by decide)
    · exact absurd (show StateRunning = StateStopped from h) (by decide)
    · exact absurd (show StateRunning = StateFailed from h) (by decide)

lemma DB.Get_ok_getFails {db : DB} {key : String} {v : StoreVal}
    (h : db.Get key = Except.ok v) : db.getFails.contains key = false := by
  unfold DB.Get at h
  by_cases hc : db.getFails.contains key = true
  · rw [if_pos hc] at h
    exact absurd h (by simp)
  · exact Bool.not_eq_true _ |>.mp hc

lemma loadByKey_pid_get {db : DB} {now : Nat} {key : String} {r : InstanceRecord}
    (h : loadByKey db now key = (r, none)) (hp : r.pid ≠ 0) :
    db.Get key = Except.ok (StoreVal.record r) := by
  unfold loadByKey at h
  rcases hg : db.Get key with e | v
  · rw [hg] at h
    have hr : r = { InstanceRecord.zero with state := StateUnknown, updatedAt := now } := by
      have := congrArg Prod.fst h
      simpa using this.symm
    rw [hr] at hp
    exact absurd rfl hp
  · rw [hg] at h
    rcases v with rr | msg
    · simp only [decodeRecord] at h
      have hrr : rr = r := by
        have := congrArg Prod.fst h
        simpa using this
      rw [hrr]
    · simp only [decodeRecord] at h
      have := congrArg Prod.snd h
      simp at this

lemma DB.set_get {db : DB} {key : String} (v : StoreVal)
    (hs : db.setSchedule = []) (hg : db.getFails.contains key = false) :
    (db.Set key v).1.Get key = Except.ok v := by
  unfold DB.Set
  rw [hs]
  simp only [DB.Get, hg, Bool.false_eq_true, if_false, List.find?_cons, beq_self_eq_true]

/-! Concrete fixtures used by witnesses and counterexamples. -/

def absId : String → String := fun s => s

def probeDead : Int → KillResult := fun _ => KillResult.esrch

def probeLive : Int → KillResult := fun _ => KillResult.ok

def cW : Controller := { gracePeriod := 10, defaultCmd := [], useAbsPaths := true }

def dbEmpty : DB := { entries := [], getFails := [], setSchedule := [] }

def dbBad : DB :=
  { entries := [("instancecontrol:/b", StoreVal.bad "boom")], getFails := [], setSchedule := [] }

/-- C5 (counterexample): on a permission-denied probe for pid 1, the
simpler variant's liveness check answers false where the claim requires
true; the richer variant answers true. -/
theorem simple_liveness_denies_eperm :
    Simple.isPidAlive (fun _ => KillResult.eperm) 1 = false ∧
    isPidAlive (fun _ => KillResult.eperm) 1 = true := by
  decide

/-- C5 (amended): both variants report any pid ≤ 0 dead; for a positive
pid the richer variant's `isPidAlive` is true exactly when the probe
succeeds or answers permission-denied, while the simpler variant's is
true exactly when the probe succeeds, so a permission-denied probe
yields false there. -/
theorem isPidAlive_contract (probe : Int → KillResult) (pid : Int) :
    (pid ≤ 0 → isPidAlive probe pid = false ∧ Simple.isPidAlive probe pid = false) ∧
    (0 < pid →
      (isPidAlive probe pid = true ↔
        (probe pid = KillResult.ok ∨ probe pid = KillResult.eperm))) ∧
    (0 < pid → (Simple.isPidAlive probe pid = true ↔ probe pid = KillResult.ok)) := by
  refine ⟨?_, ?_, ?_⟩
  · intro h
    simp [isPidAlive, Simple.isPidAlive, h]
  · intro h
    have h' : ¬pid ≤ 0 := not_le.mpr h
    simp only [isPidAlive, if_neg h']
    cases hp : probe pid <;> simp
  · intro h
    have h' : ¬pid ≤ 0 := not_le.mpr h
    simp only [Simple.isPidAlive, if_neg h']
    cases hp : probe pid <;> simp

theorem isPidAlive_contract_witness :
    (0 : Int) < 3 ∧
    (isPidAlive (fun _ => KillResult.eperm) 3 = true ↔
      ((fun _ => KillResult.eperm) 3 = KillResult.ok ∨
        (fun _ => KillResult.eperm) 3 = KillResult.eperm)) :=
  ⟨by decide, (isPidAlive_contract (fun _ => KillResult.eperm) 3).2.1 (by decide)⟩

/-- C6: whenever `Get` reports a retrieval error of any kind (absence or
store failure alike), `loadRecord` yields a synthetic `unknown` record
without error, and `GetState` returns that record successfully and
without writing; this holds in both variants. -/
theorem never_started_yields_unknown :
    (∀ (absf : String → String) (c : Controller) (db : DB) (now : Nat) (path : String)
      (s : String), db.Get (formatDBKey absf c path) = Except.error s →
      loadRecord absf c db now path =
        ({ InstanceRecord.zero with state := StateUnknown, updatedAt := now }, none)) ∧
    (∀ (c : Controller) (env : GetStateEnv) (db : DB) (path : String) (s : String),
      db.Get (formatDBKey env.absf c (env.absf path)) = Except.error s →
      GetState c env db path =
        { record := { InstanceRecord.zero with state := StateUnknown, updatedAt := env.now },
          err := none, db := db, writes := [] }) ∧
    (∀ (absf : String → String) (db : DB) (now : Nat) (path : String) (s : String),
      db.Get (Simple.dbKeyFor absf path) = Except.error s →
      Simple.loadRecord absf db now path =
        ({ InstanceRecord.zero with state := StateUnknown, updatedAt := now }, none)) ∧
    (∀ (env : GetStateEnv) (db : DB) (path : String) (s : String),
      db.Get (Simple.dbKeyFor env.absf (env.absf path)) = Except.error s →
      Simple.GetState env db path =
        { record := { InstanceRecord.zero with state := StateUnknown, updatedAt := env.now },
          err := none, db := db, writes := [] }) := by
  refine ⟨?_, ?_, ?_, ?_⟩
  · intro absf c db now path s h
    simp [loadRecord, loadByKey, h]
  · intro c env db path s h
    simp [GetState, loadRecord, loadByKey, h, InstanceRecord.zero]
  · intro absf db now path s h
    simp [Simple.loadRecord, loadByKey, h]
  · intro env db path s h
    simp [Simple.GetState, Simple.loadRecord, loadByKey, h, InstanceRecord.zero]

theorem never_started_yields_unknown_witness :
    DB.Get dbEmpty (formatDBKey absId cW (absId "/w")) = Except.error "not found" ∧
    GetState cW { absf := absId, probe := probeDead, now := 9 } dbEmpty "/w" =
      { record := { InstanceRecord.zero with state := StateUnknown, updatedAt := 9 },
        err := none, db := dbEmpty, writes := [] } :=
  ⟨by decide,
    never_started_yields_unknown.2.1 cW { absf := absId, probe := probeDead, now := 9 }
      dbEmpty "/w" "not found" (by decide)⟩

/-- C10: when `Get` succeeds but the fetched value fails the JSON
re-encode/decode round trip, `loadRecord` returns the decode error
instead of a synthetic record, and `GetState` propagates it to its
caller without writing anything; this holds in both variants. -/
theorem load_decode_error_propagates :
    (∀ (absf : String → String) (c : Controller) (db : DB) (now : Nat) (path : String)
      (v : StoreVal) (m : String),
      db.Get (formatDBKey absf c path) = Except.ok v → decodeRecord v = Except.error m →
      loadRecord absf c db now path = (InstanceRecord.zero, some m)) ∧
    (∀ (c : Controller) (env : GetStateEnv) (db : DB) (path : String) (v : StoreVal)
      (m : String),
      db.Get (formatDBKey env.absf c (env.absf path)) = Except.ok v →
      decodeRecord v = Except.error m →
      GetState c env db path =
        { record := InstanceRecord.zero, err := some m, db := db, writes := [] }) ∧
    (∀ (absf : String → String) (db : DB) (now : Nat) (path : String) (v : StoreVal)
      (m : String),
      db.Get (Simple.dbKeyFor absf path) = Except.ok v → decodeRecord v = Except.error m →
      Simple.loadRecord absf db now path = (InstanceRecord.zero, some m)) ∧
    (∀ (env : GetStateEnv) (db : DB) (path : String) (v : StoreVal) (m : String),
      db.Get (Simple.dbKeyFor env.absf (env.absf path)) = Except.ok v →
      decodeRecord v = Except.error m →
      Simple.GetState env db path =
        { record := InstanceRecord.zero, err := some m, db := db, writes := [] }) := by
  refine ⟨?_, ?_, ?_, ?_⟩
  · intro absf c db now path v m hg hd
    simp [loadRecord, loadByKey, hg, hd]
  · intro c env db path v m hg hd
    simp [GetState, loadRecord, loadByKey, hg, hd]
  · intro absf db now path v m hg hd
    simp [Simple.loadRecord, loadByKey, hg, hd]
  · intro env db path v m hg hd
    simp [Simple.GetState, Simple.loadRecord, loadByKey, hg, hd]

theorem load_decode_error_propagates_witness :
    DB.Get dbBad (formatDBKey absId cW (absId "/b")) = Except.ok (StoreVal.bad "boom") ∧
    GetState cW { absf := absId, probe := probeLive, now := 4 } dbBad "/b" =
      { record := InstanceRecord.zero, err := some "boom", db := dbBad, writes := [] } :=
  ⟨by decide,
    load_decode_error_propagates.2.1 cW { absf := absId, probe := probeLive, now := 4 }
      dbBad "/b" (StoreVal.bad "boom") "boom" (by decide) (by decide)⟩

def envStopBad : StopEnv :=
  { absf := absId, probe := probeLive, now := 5, findProcessErr := none, polls := [],
    killOk := true }

def envStopW : StopEnv :=
  { absf := absId, probe := probeDead, now := 5, findProcessErr := none, polls := [],
    killOk := true }

def rW : InstanceRecord :=
  { state := StateRunning, pid := 7, startedAt := 50, stoppedAt := 0, updatedAt := 60,
    lastError := "" }

def dbRun : DB :=
  { entries := [("instancecontrol:/a", StoreVal.record rW)], getFails := [], setSchedule := [] }

/-- C1: a loaded record with a nonzero pid whose process the liveness
check reports dead is rewritten by GetState — in either variant — to
`stopped` with pid 0 and `updated_at` set to the call's instant; the
corrected record is returned without error, is the one write of the
call, and (with the store accepting the write) is what the store then
holds under the instance's key. -/
theorem getState_self_heals_dead_pid :
    (∀ (c : Controller) (env : GetStateEnv) (db : DB) (path : String) (r : InstanceRecord),
      loadRecord env.absf c db env.now (env.absf path) = (r, none) →
      r.pid ≠ 0 → isPidAlive env.probe r.pid = false → db.setSchedule = [] →
      (GetState c env db path).record =
        { r with state := StateStopped, pid := 0, updatedAt := env.now } ∧
      (GetState c env db path).err = none ∧
      (GetState c env db path).writes =
        [{ r with state := StateStopped, pid := 0, updatedAt := env.now }] ∧
      (GetState c env db path).db.Get (formatDBKey env.absf c (env.absf path)) =
        Except.ok (StoreVal.record
          { r with state := StateStopped, pid := 0, updatedAt := env.now })) ∧
    (∀ (env : GetStateEnv) (db : DB) (path : String) (r : InstanceRecord),
      Simple.loadRecord env.absf db env.now (env.absf path) = (r, none) →
      r.pid ≠ 0 → Simple.isPidAlive env.probe r.pid = false → db.setSchedule = [] →
      (Simple.GetState env db path).record =
        { r with state := StateStopped, pid := 0, updatedAt := env.now } ∧
      (Simple.GetState env db path).err = none ∧
      (Simple.GetState env db path).writes =
        [{ r with state := StateStopped, pid := 0, updatedAt := env.now }] ∧
      (Simple.GetState env db path).db.Get (Simple.dbKeyFor env.absf (env.absf path)) =
        Except.ok (StoreVal.record
          { r with state := StateStopped, pid := 0, updatedAt := env.now })) := by
  constructor
  · intro c env db path r hl hp ha hs
    have hget : db.Get (formatDBKey env.absf c (env.absf path)) =
        Except.ok (StoreVal.record r) :=
      loadByKey_pid_get
        (show loadByKey db env.now (formatDBKey env.absf c (env.absf path)) = (r, none)
          from hl) hp
    have hgf := DB.Get_ok_getFails hget
    have hcond : r.pid ≠ 0 ∧ isPidAlive env.probe r.pid = false := ⟨hp, ha⟩
    simp only [GetState, hl]
    rw [if_pos hcond]
    refine ⟨rfl, rfl, rfl, ?_⟩
    exact DB.set_get
      (StoreVal.record { r with state := StateStopped, pid := 0, updatedAt := env.now })
      hs hgf
  · intro env db path r hl hp ha hs
    have hget : db.Get (Simple.dbKeyFor env.absf (env.absf path)) =
        Except.ok (StoreVal.record r) :=
      loadByKey_pid_get
        (show loadByKey db env.now (Simple.dbKeyFor env.absf (env.absf path)) = (r, none)
          from hl) hp
    have hgf := DB.Get_ok_getFails hget
    have hcond : r.pid ≠ 0 ∧ Simple.isPidAlive env.probe r.pid = false := ⟨hp, ha⟩
    simp only [Simple.GetState, hl]
    rw [if_pos hcond]
    refine ⟨rfl, rfl, rfl, ?_⟩
    exact DB.set_get
      (StoreVal.record { r with state := StateStopped, pid := 0, updatedAt := env.now })
      hs hgf

theorem getState_self_heals_dead_pid_witness :
    loadRecord absId cW dbRun 100 (absId "/a") = (rW, none) ∧
    (GetState cW { absf := absId, probe := probeDead, now := 100 } dbRun "/a").record =
      { rW with state := StateStopped, pid := 0, updatedAt := 100 } :=
  ⟨by decide,
    (getState_self_heals_dead_pid.1 cW { absf := absId, probe := probeDead, now := 100 }
      dbRun "/a" rW (by decide) (by decide) (by decide) rfl).1⟩

/-- C3: a Start call whose loaded record has a nonzero pid that the
liveness check reports alive returns success at once: nothing is
spawned, no watch task is launched, no write is attempted and the store
is returned unchanged; this holds in both variants (the simpler variant
discards the load error, so there for any load outcome). -/
theorem start_idempotent_on_live_pid :
    (∀ (c : Controller) (env : StartEnv) (db : DB) (path : String) (cmd : List String)
      (r : InstanceRecord),
      loadRecord env.absf c db env.now (env.absf path) = (r, none) →
      r.pid ≠ 0 → isPidAlive env.probe r.pid = true →
      Start c env db path cmd =
        { err := none, db := db, writes := [], spawned := false, watchStarted := false }) ∧
    (∀ (env : StartEnv) (db : DB) (path : String) (cmd : List String) (r : InstanceRecord)
      (e : Option String),
      Simple.loadRecord env.absf db env.now (env.absf path) = (r, e) →
      r.pid ≠ 0 → Simple.isPidAlive env.probe r.pid = true →
      Simple.Start env db path cmd =
        { err := none, db := db, writes := [], spawned := false, watchStarted := false }) := by
  constructor
  · intro c env db path cmd r hl hp ha
    simp only [Start, hl]
    rw [if_pos ⟨hp, ha⟩]
  · intro env db path cmd r e hl hp ha
    simp only [Simple.Start, hl]
    rw [if_pos ⟨hp, ha⟩]

def envStartLive : StartEnv :=
  { absf := absId, probe := probeLive, now := 30, mkdirOk := true,
    spawn := SpawnOutcome.ok 99 }

theorem start_idempotent_on_live_pid_witness :
    loadRecord absId cW dbRun 30 (absId "/a") = (rW, none) ∧
    Start cW envStartLive dbRun "/a" ["run"] =
      { err := none, db := dbRun, writes := [], spawned := false, watchStarted := false } :=
  ⟨by decide,
    start_idempotent_on_live_pid.1 cW envStartLive dbRun "/a" ["run"] rW
      (by decide) (by decide) (by decide)⟩

/-- C4 (amended): once the record has loaded (and decoded) successfully,
Stop fails exactly when obtaining the process handle for a live pid
fails, in which case it attempts to persist a `failed` record carrying
that error; in every other post-load case — pid 0 or dead process,
graceful exit observed while polling, or grace-period expiry followed by
the forced kill, whose own outcome is ignored — it attempts to persist a
`stopped` record and returns success. A record that fails to decode
during load makes the richer variant's Stop return that error with
nothing persisted; the simpler variant discards load errors. -/
theorem stop_error_policy :
    (∀ (c : Controller) (env : StopEnv) (db : DB) (path : String) (r : InstanceRecord),
      loadRecord env.absf c db env.now (env.absf path) = (r, none) →
      ((r.pid = 0 ∨ isPidAlive env.probe r.pid = false) →
        (Stop c env db path).err = none ∧
        (Stop c env db path).writes =
          [{ InstanceRecord.zero with
              state := StateStopped, stoppedAt := env.now, updatedAt := env.now }]) ∧
      (r.pid ≠ 0 → isPidAlive env.probe r.pid = true →
        (∀ e, env.findProcessErr = some e →
          (Stop c env db path).err = some e ∧
          (Stop c env db path).writes =
            [{ InstanceRecord.zero with
                state := StateFailed, lastError := e, updatedAt := env.now }]) ∧
        (env.findProcessErr = none →
          (Stop c env db path).err = none ∧
          (Stop c env db path).writes =
            [{ InstanceRecord.zero with
                state := StateStopped, stoppedAt := env.now, updatedAt := env.now }])) ∧
      (∀ b, Stop c { env with killOk := b } db path = Stop c env db path)) ∧
    (∀ (env : StopEnv) (db : DB) (path : String) (r : InstanceRecord) (e0 : Option String),
      Simple.loadRecord env.absf db env.now (env.absf path) = (r, e0) →
      ((r.pid = 0 ∨ Simple.isPidAlive env.probe r.pid = false) →
        (Simple.Stop env db path).err = none ∧
        (Simple.Stop env db path).writes =
          [{ InstanceRecord.zero with state := StateStopped, updatedAt := env.now }]) ∧
      (r.pid ≠ 0 → Simple.isPidAlive env.probe r.pid = true →
        (∀ e, env.findProcessErr = some e →
          (Simple.Stop env db path).err = some e ∧
          (Simple.Stop env db path).writes =
            [{ InstanceRecord.zero with
                state := StateFailed, lastError := e, updatedAt := env.now }]) ∧
        (env.findProcessErr = none →
          (Simple.Stop env db path).err = none ∧
          (Simple.Stop env db path).writes =
            [{ InstanceRecord.zero with
                state := StateStopped, stoppedAt := env.now, updatedAt := env.now }])) ∧
      (∀ b, Simple.Stop { env with killOk := b } db path = Simple.Stop env db path)) := by
  constructor
  · intro c env db path r hl
    refine ⟨?_, ?_, ?_⟩
    · intro hcase
      simp only [Stop, hl]
      rw [if_pos hcase]
      exact ⟨rfl, rfl⟩
    · intro hp ha
      have hneg : ¬(r.pid = 0 ∨ isPidAlive env.probe r.pid = false) := by
        rintro (h | h)
        · exact hp h
        · rw [ha] at h
          cases h
      constructor
      · intro e he
        simp only [Stop, hl]
        rw [if_neg hneg, he]
        exact ⟨rfl, rfl⟩
      · intro he
        simp only [Stop, hl]
        rw [if_neg hneg, he]
        by_cases hq : pollUntilDead env.polls = true
        · rw [if_pos hq]
          exact ⟨rfl, rfl⟩
        · rw [if_neg hq]
          exact ⟨rfl, rfl⟩
    · intro b
      rfl
  · intro env db path r e0 hl
    have hr : (Simple.loadRecord env.absf db env.now (env.absf path)).1 = r := by
      rw [hl]
    refine ⟨?_, ?_, ?_⟩
    · intro hcase
      simp only [Simple.Stop, hr]
      rw [if_pos hcase]
      exact ⟨rfl, rfl⟩
    · intro hp ha
      have hneg : ¬(r.pid = 0 ∨ Simple.isPidAlive env.probe r.pid = false) := by
        rintro (h | h)
        · exact hp h
        · rw [ha] at h
          cases h
      constructor
      · intro e he
        simp only [Simple.Stop, hr]
        rw [if_neg hneg, he]
        exact ⟨rfl, rfl⟩
      · intro he
        simp only [Simple.Stop, hr]
        rw [if_neg hneg, he]
        by_cases hq : pollUntilDead env.polls = true
        · rw [if_pos hq]
          exact ⟨rfl, rfl⟩
        · rw [if_neg hq]
          exact ⟨rfl, rfl⟩
    · intro b
      rfl

theorem stop_error_policy_witness :
    loadRecord absId cW dbEmpty 5 (absId "/s") =
      ({ InstanceRecord.zero with state := StateUnknown, updatedAt := 5 }, none) ∧
    (Stop cW envStopW dbEmpty "/s").err = none :=
  ⟨by decide,
    ((stop_error_policy.1 cW envStopW dbEmpty "/s"
      { InstanceRecord.zero with state := StateUnknown, updatedAt := 5 } (by decide)).1
      (Or.inl (by decide))).1⟩

/-- C4 (counterexample): on a stored value that fails to decode, the
richer variant's Stop returns that error although obtaining the process
handle was never the failing step, and it persists nothing — so Stop can
fail other than through the process-handle lookup. -/
theorem stop_error_without_find_process_failure :
    (Stop cW envStopBad dbBad "/b").err = some "boom" ∧
    envStopBad.findProcessErr = none ∧
    (Stop cW envStopBad dbBad "/b").writes = [] := by
  decide

/-- C8: with the store accepting the write and the key readable, saving
a valid record (one whose `updated_at` does not lie in the future) and
then loading the same key yields the saved record with every field
unchanged except `updated_at`, which is stamped with the save instant
and hence is at least the value before the save; in both variants. -/
theorem save_load_roundtrip :
    (∀ (absf : String → String) (c : Controller) (db : DB) (now now2 : Nat) (path : String)
      (r : InstanceRecord),
      db.setSchedule = [] →
      db.getFails.contains (formatDBKey absf c path) = false →
      r.updatedAt ≤ now →
      loadRecord absf c (saveRecord absf c db now path r).db now2 path =
        ({ r with updatedAt := now }, none) ∧
      r.updatedAt ≤ (loadRecord absf c (saveRecord absf c db now path r).db now2 path).1.updatedAt) ∧
    (∀ (absf : String → String) (db : DB) (now now2 : Nat) (path : String)
      (r : InstanceRecord),
      db.setSchedule = [] →
      db.getFails.contains (Simple.dbKeyFor absf path) = false →
      r.updatedAt ≤ now →
      Simple.loadRecord absf (Simple.saveRecord absf db now path r).db now2 path =
        ({ r with updatedAt := now }, none) ∧
      r.updatedAt ≤
        (Simple.loadRecord absf (Simple.saveRecord absf db now path r).db now2 path).1.updatedAt) := by
  constructor
  · intro absf c db now now2 path r hs hg hle
    have hget := DB.set_get (StoreVal.record { r with updatedAt := now }) hs hg
    have hload : loadRecord absf c (saveRecord absf c db now path r).db now2 path =
        ({ r with updatedAt := now }, none) := by
      simp only [loadRecord, loadByKey, saveRecord, saveByKey]
      rw [hget]
      rfl
    refine ⟨hload, ?_⟩
    rw [hload]
    exact hle
  · intro absf db now now2 path r hs hg hle
    have hget := DB.set_get (StoreVal.record { r with updatedAt := now }) hs hg
    have hload : Simple.loadRecord absf (Simple.saveRecord absf db now path r).db now2 path =
        ({ r with updatedAt := now }, none) := by
      simp only [Simple.loadRecord, loadByKey, Simple.saveRecord, saveByKey]
      rw [hget]
      rfl
    refine ⟨hload, ?_⟩
    rw [hload]
    exact hle

theorem save_load_roundtrip_witness :
    dbEmpty.setSchedule = [] ∧
    rW.updatedAt ≤ 100 ∧
    loadRecord absId cW (saveRecord absId cW dbEmpty 100 "/a" rW).db 200 "/a" =
      ({ rW with updatedAt := 100 }, none) :=
  ⟨rfl, by decide,
    (save_load_roundtrip.1 absId cW dbEmpty 100 200 "/a" rW rfl (by decide) (by decide)).1⟩

/-- The invariant of the serialized-watch schedule: task 0 holds the
`watchLock` inside `cmd.Wait()` and task 1 has not yet entered. -/
def wBlockedInv (s : WatchSched) : Prop :=
  s.lock = some 0 ∧ s.ph 0 = WatchPhase.waiting ∧ s.ph 1 = WatchPhase.pending

lemma wstep_preserves (s : WatchSched) (e : WEvent) (hs : wBlockedInv s)
    (he : e ≠ WEvent.exit 0) : wBlockedInv (wstep s e) := by
  rcases hs with ⟨h1, h2, h3⟩
  rcases e with i | i
  · simp only [wstep]
    rw [if_neg]
    · exact ⟨h1, h2, h3⟩
    · rintro ⟨hl, _⟩
      rw [h1] at hl
      cases hl
  · simp only [wstep]
    rw [if_neg]
    · exact ⟨h1, h2, h3⟩
    · rintro ⟨hl, _⟩
      rw [h1] at hl
      exact he (congrArg WEvent.exit (Option.some.inj hl).symm)

lemma wrun_preserves (tr : List WEvent) : ∀ s, wBlockedInv s → WEvent.exit 0 ∉ tr →
    wBlockedInv (wrun s tr) := by
  induction tr with
  | nil =>
    intro s hs _
    exact hs
  | cons e es ih =>
    intro s hs hn
    have he : e ≠ WEvent.exit 0 := fun h => hn (h ▸ List.mem_cons_self e es)
    have hn' : WEvent.exit 0 ∉ es := fun h => hn (List.mem_cons_of_mem e h)
    exact ih (wstep s e) (wstep_preserves s e hs he) hn'

/-- C9 (on the defect): because `watchProcess` takes the one shared
`watchLock` before `cmd.Wait()` and holds it across the whole wait, a
second instance's watch task can never record its process's exit while
the first instance's process is still running: from the state where task
0 holds the lock in its wait, no event sequence avoiding the exit of
process 0 lets task 1 leave its pending phase — exit handling is
serialized behind the lock, contradicting the claimed independence. -/
theorem watch_lock_serializes_exit_handling (tr : List WEvent)
    (h : WEvent.exit 0 ∉ tr) :
    (wrun wInit tr).lock = some 0 ∧ (wrun wInit tr).ph 1 = WatchPhase.pending := by
  have hinv := wrun_preserves tr wInit ⟨rfl, rfl, rfl⟩ h
  exact ⟨hinv.1, hinv.2.2⟩

/-- C2: every record any operation of either variant hands to the
store's `Set` — from Start, Stop, GetState or the watch task — carries a
nonzero pid only together with state `running`, and its `starting`,
`stopped` and `failed` writes all carry pid 0. -/
theorem controller_write_invariant :
    (∀ (c : Controller) (env : StartEnv) (db : DB) (path : String) (cmd : List String),
      ∀ w ∈ (Start c env db path cmd).writes, goodWrite w) ∧
    (∀ (c : Controller) (env : StopEnv) (db : DB) (path : String),
      ∀ w ∈ (Stop c env db path).writes, goodWrite w) ∧
    (∀ (c : Controller) (env : GetStateEnv) (db : DB) (path : String),
      ∀ w ∈ (GetState c env db path).writes, goodWrite w) ∧
    (∀ (c : Controller) (absf : String → String) (db : DB) (now : Nat) (p : String)
      (we : Option String), goodWrite (watchProcess c absf db now p we).written) ∧
    (∀ (env : StartEnv) (db : DB) (path : String) (cmd : List String),
      ∀ w ∈ (Simple.Start env db path cmd).writes, goodWrite w) ∧
    (∀ (env : StopEnv) (db : DB) (path : String),
      ∀ w ∈ (Simple.Stop env db path).writes, goodWrite w) ∧
    (∀ (env : GetStateEnv) (db : DB) (path : String),
      ∀ w ∈ (Simple.GetState env db path).writes, goodWrite w) ∧
    (∀ (absf : String → String) (db : DB) (now : Nat) (p : String) (we : Option String),
      goodWrite (Simple.watchBody absf db now p we).written) := by
  refine ⟨?_, ?_, ?_, ?_, ?_, ?_, ?_, ?_⟩
  · intro c env db path cmd w hw
    rcases hl : loadRecord env.absf c db env.now (env.absf path) with ⟨r, e⟩
    rcases e with _ | e0
    · simp only [Start, hl] at hw
      by_cases h1 : r.pid ≠ 0 ∧ isPidAlive env.probe r.pid = true
      · rw [if_pos h1] at hw
        simp at hw
      · rw [if_neg h1] at hw
        by_cases h2 : cmd = [] ∧ c.defaultCmd = []
        · rw [if_pos h2] at hw
          simp at hw
        · rw [if_neg h2] at hw
          by_cases h3 : env.mkdirOk = false
          · rw [if_pos h3] at hw
            simp at hw
          · rw [if_neg h3] at hw
            rcases hs : (saveRecord env.absf c db env.now (env.absf path)
                { InstanceRecord.zero with state := StateStarting }).err with _ | e1
            · rw [hs] at hw
              rcases hsp : env.spawn with pid0 | msg
              · rw [hsp] at hw
                simp at hw
                rcases hw with hw | hw
                · subst hw
                  exact goodWrite_of_pid_zero _ rfl
                · subst hw
                  exact goodWrite_running pid0 env.now env.now
              · rw [hsp] at hw
                simp at hw
                rcases hw with hw | hw
                · subst hw
                  exact goodWrite_of_pid_zero _ rfl
                · subst hw
                  exact goodWrite_of_pid_zero _ rfl
            · rw [hs] at hw
              simp at hw
              subst hw
              exact goodWrite_of_pid_zero _ rfl
    · simp only [Start, hl] at hw
      simp at hw
  · intro c env db path w hw
    rcases hl : loadRecord env.absf c db env.now (env.absf path) with ⟨r, e⟩
    rcases e with _ | e0
    · simp only [Stop, hl] at hw
      by_cases h1 : r.pid = 0 ∨ isPidAlive env.probe r.pid = false
      · rw [if_pos h1] at hw
        simp at hw
        subst hw
        exact goodWrite_of_pid_zero _ rfl
      · rw [if_neg h1] at hw
        rcases hf : env.findProcessErr with _ | e1
        · rw [hf] at hw
          by_cases h2 : pollUntilDead env.polls = true
          · rw [if_pos h2] at hw
            simp at hw
            subst hw
            exact goodWrite_of_pid_zero _ rfl
          · rw [if_neg h2] at hw
            simp at hw
            subst hw
            exact goodWrite_of_pid_zero _ rfl
        · rw [hf] at hw
          simp at hw
          subst hw
          exact goodWrite_of_pid_zero _ rfl
    · simp only [Stop, hl] at hw
      simp at hw
  · intro c env db path w hw
    rcases hl : loadRecord env.absf c db env.now (env.absf path) with ⟨r, e⟩
    rcases e with _ | e0
    · simp only [GetState, hl] at hw
      by_cases h1 : r.pid ≠ 0 ∧ isPidAlive env.probe r.pid = false
      · rw [if_pos h1] at hw
        simp at hw
        subst hw
        exact goodWrite_of_pid_zero _ rfl
      · rw [if_neg h1] at hw
        simp at hw
    · simp only [GetState, hl] at hw
      simp at hw
  · intro c absf db now p we
    exact goodWrite_of_pid_zero _ rfl
  · intro env db path cmd w hw
    simp only [Simple.Start] at hw
    by_cases h1 : (Simple.loadRecord env.absf db env.now (env.absf path)).1.pid ≠ 0 ∧
        Simple.isPidAlive env.probe
          (Simple.loadRecord env.absf db env.now (env.absf path)).1.pid = true
    · rw [if_pos h1] at hw
      simp at hw
    · rw [if_neg h1] at hw
      by_cases h2 : cmd = []
      · rw [if_pos h2] at hw
        simp at hw
      · rw [if_neg h2] at hw
        rcases hsp : env.spawn with pid0 | msg
        · rw [hsp] at hw
          simp at hw
          rcases hw with hw | hw
          · subst hw
            exact goodWrite_of_pid_zero _ rfl
          · subst hw
            exact goodWrite_running pid0 env.now env.now
        · rw [hsp] at hw
          simp at hw
          rcases hw with hw | hw
          · subst hw
            exact goodWrite_of_pid_zero _ rfl
          · subst hw
            exact goodWrite_of_pid_zero _ rfl
  · intro env db path w hw
    simp only [Simple.Stop] at hw
    by_cases h1 : (Simple.loadRecord env.absf db env.now (env.absf path)).1.pid = 0 ∨
        Simple.isPidAlive env.probe
          (Simple.loadRecord env.absf db env.now (env.absf path)).1.pid = false
    · rw [if_pos h1] at hw
      simp at hw
      subst hw
      exact goodWrite_of_pid_zero _ rfl
    · rw [if_neg h1] at hw
      rcases hf : env.findProcessErr with _ | e1
      · rw [hf] at hw
        by_cases h2 : pollUntilDead env.polls = true
        · rw [if_pos h2] at hw
          simp at hw
          subst hw
          exact goodWrite_of_pid_zero _ rfl
        · rw [if_neg h2] at hw
          simp at hw
          subst hw
          exact goodWrite_of_pid_zero _ rfl
      · rw [hf] at hw
        simp at hw
        subst hw
        exact goodWrite_of_pid_zero _ rfl
  · intro env db path w hw
    rcases hl : Simple.loadRecord env.absf db env.now (env.absf path) with ⟨r, e⟩
    rcases e with _ | e0
    · simp only [Simple.GetState, hl] at hw
      by_cases h1 : r.pid ≠ 0 ∧ Simple.isPidAlive env.probe r.pid = false
      · rw [if_pos h1] at hw
        simp at hw
        subst hw
        exact goodWrite_of_pid_zero _ rfl
      · rw [if_neg h1] at hw
        simp at hw
    · simp only [Simple.GetState, hl] at hw
      simp at hw
  · intro absf db now p we
    exact goodWrite_of_pid_zero _ rfl

theorem controller_write_invariant_witness :
    ({ InstanceRecord.zero with state := StateStopped, stoppedAt := 5, updatedAt := 5 }
        ∈ (Stop cW envStopW dbEmpty "/s").writes) ∧
    goodWrite { InstanceRecord.zero with state := StateStopped, stoppedAt := 5, updatedAt := 5 } :=
  ⟨by decide,
    controller_write_invariant.2.1 cW envStopW dbEmpty "/s"
      { InstanceRecord.zero with state := StateStopped, stoppedAt := 5, updatedAt := 5 }
      (by decide)⟩

theorem watch_lock_serializes_exit_handling_witness :
    (WEvent.exit 0 ∉ [WEvent.acquire 1, WEvent.exit 1]) ∧
    (wrun wInit [WEvent.acquire 1, WEvent.exit 1]).ph 1 = WatchPhase.pending :=
  ⟨by decide,
    (watch_lock_serializes_exit_handling [WEvent.acquire 1, WEvent.exit 1] (by decide)).2⟩

def dbSchedFail : DB := { entries := [], getFails := [], setSchedule := [true] }

def envStartW : StartEnv :=
  { absf := absId, probe := probeDead, now := 7, mkdirOk := true,
    spawn := SpawnOutcome.ok 42 }

def rUnknown7 : InstanceRecord :=
  { InstanceRecord.zero with state := StateUnknown, updatedAt := 7 }

/-- C7 (counterexample): in the simpler variant, with the `Set` call for
the `starting` record failing (schedule head `true`), Start still spawns
the process and returns success instead of returning the persistence
error — the pre-spawn Set failure is swallowed there, not propagated. -/
theorem simple_start_swallows_pre_spawn_set_failure :
    dbSchedFail.setSchedule = [true] ∧
    (Simple.Start envStartW dbSchedFail "/p" ["run"]).err = none ∧
    (Simple.Start envStartW dbSchedFail "/p" ["run"]).spawned = true := by
  decide

/-- C7 (amended): in the richer variant a Set failure on the `starting`
record — the one write before the OS-level spawn — makes Start return
that error without spawning and with the store's entries untouched,
while once that write has succeeded Start's error and spawn outcome are
decided by the spawn alone, whatever the later Set outcomes; Stop's
returned error never depends on the Set schedule; in the simpler
variant even the pre-spawn Set failure is swallowed: Start's error and
spawn outcome never depend on the Set schedule at all. -/
theorem start_persistence_error_policy :
    (∀ (c : Controller) (env : StartEnv) (db : DB) (path : String) (cmd : List String)
      (r : InstanceRecord) (rest : List Bool),
      loadRecord env.absf c db env.now (env.absf path) = (r, none) →
      ¬(r.pid ≠ 0 ∧ isPidAlive env.probe r.pid = true) →
      ¬(cmd = [] ∧ c.defaultCmd = []) →
      env.mkdirOk = true →
      (db.setSchedule = true :: rest →
        (Start c env db path cmd).err = some "set failed" ∧
        (Start c env db path cmd).spawned = false ∧
        (Start c env db path cmd).db.entries = db.entries) ∧
      (db.setSchedule = false :: rest →
        (Start c env db path cmd).err = env.spawn.toErr ∧
        (Start c env db path cmd).spawned = env.spawn.isOk)) ∧
    (∀ (c : Controller) (env : StopEnv) (db : DB) (path : String) (s1 s2 : List Bool),
      (Stop c env { db with setSchedule := s1 } path).err =
        (Stop c env { db with setSchedule := s2 } path).err) ∧
    (∀ (env : StartEnv) (db : DB) (path : String) (cmd : List String) (s1 s2 : List Bool),
      (Simple.Start env { db with setSchedule := s1 } path cmd).err =
        (Simple.Start env { db with setSchedule := s2 } path cmd).err ∧
      (Simple.Start env { db with setSchedule := s1 } path cmd).spawned =
        (Simple.Start env { db with setSchedule := s2 } path cmd).spawned) := by
  refine ⟨?_, ?_, ?_⟩
  · intro c env db path cmd r rest hl hna hcmd hmk
    have hmk' : ¬env.mkdirOk = false := by
      rw [hmk]
      exact fun hc => Bool.noConfusion hc
    constructor
    · intro hsch
      have hserr : (saveRecord env.absf c db env.now (env.absf path)
          { InstanceRecord.zero with state := StateStarting }).err = some "set failed" := by
        simp [saveRecord, saveByKey, DB.Set, hsch]
      have hsdb : (saveRecord env.absf c db env.now (env.absf path)
          { InstanceRecord.zero with state := StateStarting }).db =
          { db with setSchedule := rest } := by
        simp [saveRecord, saveByKey, DB.Set, hsch]
      simp only [Start, hl]
      rw [if_neg hna, if_neg hcmd, if_neg hmk', hserr, hsdb]
      exact ⟨rfl, rfl, rfl⟩
    · intro hsch
      have hserr : (saveRecord env.absf c db env.now (env.absf path)
          { InstanceRecord.zero with state := StateStarting }).err = none := by
        simp [saveRecord, saveByKey, DB.Set, hsch]
      simp only [Start, hl]
      rw [if_neg hna, if_neg hcmd, if_neg hmk', hserr]
      rcases hsp : env.spawn with pid0 | msg
      · exact ⟨rfl, rfl⟩
      · exact ⟨rfl, rfl⟩
  · intro c env db path s1 s2
    have hl12 : loadRecord env.absf c { db with setSchedule := s1 } env.now (env.absf path) =
        loadRecord env.absf c { db with setSchedule := s2 } env.now (env.absf path) := rfl
    rcases hL : loadRecord env.absf c { db with setSchedule := s2 } env.now (env.absf path)
      with ⟨r, e⟩
    rcases e with _ | e0
    · simp only [Stop, hl12, hL]
      by_cases h1 : r.pid = 0 ∨ isPidAlive env.probe r.pid = false
      · rw [if_pos h1, if_pos h1]
      · rw [if_neg h1, if_neg h1]
        rcases hf : env.findProcessErr with _ | e1
        · by_cases h2 : pollUntilDead env.polls = true
          · rw [if_pos h2, if_pos h2]
          · rw [if_neg h2, if_neg h2]
        · rfl
    · simp only [Stop, hl12, hL]
  · intro env db path cmd s1 s2
    have hl12 : Simple.loadRecord env.absf { db with setSchedule := s1 } env.now
        (env.absf path) =
        Simple.loadRecord env.absf { db with setSchedule := s2 } env.now (env.absf path) := rfl
    simp only [Simple.Start, hl12]
    by_cases h1 : (Simple.loadRecord env.absf { db with setSchedule := s2 } env.now
          (env.absf path)).1.pid ≠ 0 ∧
        Simple.isPidAlive env.probe
          (Simple.loadRecord env.absf { db with setSchedule := s2 } env.now
            (env.absf path)).1.pid = true
    · rw [if_pos h1, if_pos h1]
      exact ⟨rfl, rfl⟩
    · rw [if_neg h1, if_neg h1]
      by_cases h2 : cmd = []
      · rw [if_pos h2, if_pos h2]
        exact ⟨rfl, rfl⟩
      · rw [if_neg h2, if_neg h2]
        rcases hsp : env.spawn with pid0 | msg
        · exact ⟨rfl, rfl⟩
        · exact ⟨rfl, rfl⟩

theorem start_persistence_error_policy_witness :
    dbSchedFail.setSchedule = true :: [] ∧
    (Start cW envStartW dbSchedFail "/p" ["run"]).err = some "set failed" :=
  ⟨rfl,
    ((start_persistence_error_policy.1 cW envStartW dbSchedFail "/p" ["run"] rUnknown7 []
      (by decide) (by decide) (by decide) rfl).1 rfl).1⟩

end InstanceControl
